import Mathlib

/-!
Shallow embedding of the data pipeline of `dashboard.py` (a Strava activity
dashboard): CSV ingestion and normalization (`load_data`), sidebar filtering
(`df_filtered`), scalar summaries, the monthly / cumulative aggregations and
the recent-activity view.  Numeric dataframe cells are modelled by `PVal`:
a rational number, NaN, or one of the two infinities, with the arithmetic
of the underlying float operations made explicit (division by zero yields
±infinity or NaN, comparisons with NaN are false, `fillna` and `replace`
rewrite NaN resp. ±infinity to 0).
-/

/-- Value of a numeric dataframe cell: a finite number (modelled as a
rational), NaN (also standing for a missing value), or ±infinity. -/
inductive PVal where
  | nan : PVal
  | pinf : PVal
  | ninf : PVal
  | num : ℚ → PVal
deriving DecidableEq, Repr

namespace PVal

/-- Cell is NaN / missing. -/
def isNan : PVal → Bool
  | .nan => true
  | _ => false

/-- Cell is a finite number. -/
def isNum : PVal → Bool
  | .num _ => true
  | _ => false

/-- Cell is one of the two infinities. -/
def isInf : PVal → Bool
  | .pinf => true
  | .ninf => true
  | _ => false

/-- Comparison `v > 0` with float semantics: false on NaN, true on +inf. -/
def isPos : PVal → Bool
  | .nan => false
  | .pinf => true
  | .ninf => false
  | .num q => decide (0 < q)

/-- Multiplication by a positive rational constant (unit conversions such as
`/ 1000`, `/ 3600`, `* 3.6` in `load_data`; the constant is always positive
so infinities keep their sign). -/
def scale (c : ℚ) : PVal → PVal
  | .nan => .nan
  | .pinf => .pinf
  | .ninf => .ninf
  | .num q => .num (c * q)

/-- Float division: NaN propagates, inf/inf = NaN, finite/±inf = 0,
division of a finite number by zero gives ±inf (NaN for 0/0). -/
def div : PVal → PVal → PVal
  | .nan, _ => .nan
  | _, .nan => .nan
  | .pinf, .pinf => .nan
  | .pinf, .ninf => .nan
  | .ninf, .pinf => .nan
  | .ninf, .ninf => .nan
  | .pinf, .num b => if 0 ≤ b then .pinf else .ninf
  | .ninf, .num b => if 0 ≤ b then .ninf else .pinf
  | .num _, .pinf => .num 0
  | .num _, .ninf => .num 0
  | .num a, .num b =>
      if b = 0 then (if a = 0 then .nan else if 0 < a then .pinf else .ninf)
      else .num (a / b)

/-- Float addition: NaN propagates, +inf + -inf = NaN. -/
def add : PVal → PVal → PVal
  | .nan, _ => .nan
  | _, .nan => .nan
  | .pinf, .ninf => .nan
  | .ninf, .pinf => .nan
  | .pinf, _ => .pinf
  | _, .pinf => .pinf
  | .ninf, _ => .ninf
  | _, .ninf => .ninf
  | .num a, .num b => .num (a + b)

/-- Pandas `fillna(0)`: NaN becomes 0, everything else unchanged. -/
def fillna0 : PVal → PVal
  | .nan => .num 0
  | v => v

/-- Pandas `replace([inf, -inf], 0)`: both infinities become 0. -/
def replaceInf0 : PVal → PVal
  | .pinf => .num 0
  | .ninf => .num 0
  | v => v

end PVal

/-- Pandas `Series.sum()` with the default `skipna=True`: NaN entries are
skipped, the remaining values are added with float semantics. -/
def psum (l : List PVal) : PVal :=
  (l.filter (fun v => !v.isNan)).foldl PVal.add (.num 0)

/-- Pandas `Series.mean()`: sum of the non-NaN entries divided by their
count; on an empty (or all-NaN) series this is 0/0, i.e. NaN. -/
def pmean (l : List PVal) : PVal :=
  (psum l).div (.num ((l.filter (fun v => !v.isNan)).length : ℚ))

/-- Pandas `Series.cumsum()` (`skipna=True`): a NaN entry stays NaN in the
output and is skipped by the running total. -/
def pcumsumFrom (acc : PVal) : List PVal → List PVal
  | [] => []
  | v :: vs =>
      if v.isNan then .nan :: pcumsumFrom acc vs
      else (acc.add v) :: pcumsumFrom (acc.add v) vs

/-- Running sum of a series, starting from 0. -/
def pcumsum (l : List PVal) : List PVal := pcumsumFrom (.num 0) l

/-- Round-half-to-even to an integer, the rounding mode of `numpy.round`. -/
def rhe (q : ℚ) : ℤ :=
  if q - ⌊q⌋ < 1/2 then ⌊q⌋
  else if 1/2 < q - ⌊q⌋ then ⌊q⌋ + 1
  else if ⌊q⌋ % 2 = 0 then ⌊q⌋ else ⌊q⌋ + 1

/-- Pandas `round(1)`: one-decimal rounding of finite cells, NaN and the
infinities unchanged. -/
def pround1 : PVal → PVal
  | .num q => .num ((rhe (q * 10) : ℚ) / 10)
  | v => v

/-- Timestamp of an activity (`Activity Date` after `pd.to_datetime`):
`monthIdx` is the linear calendar-month index (the `resample('M')` bucket),
`sub` orders instants within a month. -/
structure Stamp where
  monthIdx : Nat
  sub : Nat
deriving DecidableEq, Repr

/-- Chronological order on timestamps (lexicographic). -/
def Stamp.le (a b : Stamp) : Bool :=
  decide (a.monthIdx < b.monthIdx) ||
    (decide (a.monthIdx = b.monthIdx) && decide (a.sub ≤ b.sub))

/-- Calendar year of a timestamp, as read off by `df.index.year`. -/
def Stamp.year (a : Stamp) : Nat := 1970 + a.monthIdx / 12

/-- Raw CSV row: the parseable timestamp plus the optional numeric source
columns recognised by `load_data` and the two text columns. A cell of a
column that is absent from the file is irrelevant; presence is recorded
per-table in `RawTable`. -/
structure RawRow where
  activityDate : Stamp
  activityType : String
  activityName : String
  distance1 : PVal
  distance : PVal
  movingTime : PVal
  totalElevationGain : PVal
  elevationGain : PVal
  averageSpeed : PVal
  calories : PVal
deriving DecidableEq, Repr

/-- Raw CSV table: rows plus per-column presence flags (pandas columns exist
for the whole frame, not per row). -/
structure RawTable where
  rows : List RawRow
  hasDistance1 : Bool
  hasDistance : Bool
  hasMovingTime : Bool
  hasTotalElevationGain : Bool
  hasElevationGain : Bool
  hasAverageSpeed : Bool
  hasCalories : Bool
deriving DecidableEq, Repr

/-- Normalized activity row: the five derived key columns, the calendar
fields, and the numeric source columns that remain part of the frame
(`none` when the column is absent from the file). -/
structure Row where
  activityDate : Stamp
  year : Nat
  activityType : String
  activityName : String
  distanceKm : PVal
  movingTimeHr : PVal
  elevationGainM : PVal
  avgSpeedKmh : PVal
  calories : PVal
  rawDistance1 : Option PVal
  rawDistance : Option PVal
  rawMovingTime : Option PVal
  rawTotalElevationGain : Option PVal
  rawElevationGain : Option PVal
  rawAverageSpeed : Option PVal
deriving DecidableEq, Repr

/-- Every numeric cell of a normalized row, derived and retained-source
alike (the cells `df.replace([inf, -inf], 0)` ranges over). -/
def Row.numCells (r : Row) : List PVal :=
  [r.distanceKm, r.movingTimeHr, r.elevationGainM, r.avgSpeedKmh, r.calories]
    ++ r.rawDistance1.toList ++ r.rawDistance.toList ++ r.rawMovingTime.toList
    ++ r.rawTotalElevationGain.toList ++ r.rawElevationGain.toList
    ++ r.rawAverageSpeed.toList

/-- Column derivation step of `load_data` (lines 37-74): first-match-wins
column resolution with unit conversion, the per-row guarded division for
average speed, and the zero default for `Calories`; no NaN/inf cleaning
yet. -/
def deriveRow (t : RawTable) (rr : RawRow) : Row :=
  let dist : PVal :=
    if t.hasDistance1 then rr.distance1.scale (1/1000)
    else if t.hasDistance then rr.distance
    else .num 0
  let mt : PVal :=
    if t.hasMovingTime then rr.movingTime.scale (1/3600)
    else .num 0
  let elev : PVal :=
    if t.hasTotalElevationGain then rr.totalElevationGain
    else if t.hasElevationGain then rr.elevationGain
    else .num 0
  let spd : PVal :=
    if t.hasAverageSpeed then rr.averageSpeed.scale (36/10)
    else if mt.isPos then dist.div mt else .num 0
  let cal : PVal :=
    if t.hasCalories then rr.calories else .num 0
  { activityDate := rr.activityDate
    year := rr.activityDate.year
    activityType := rr.activityType
    activityName := rr.activityName
    distanceKm := dist
    movingTimeHr := mt
    elevationGainM := elev
    avgSpeedKmh := spd
    calories := cal
    rawDistance1 := if t.hasDistance1 then some rr.distance1 else none
    rawDistance := if t.hasDistance then some rr.distance else none
    rawMovingTime := if t.hasMovingTime then some rr.movingTime else none
    rawTotalElevationGain :=
      if t.hasTotalElevationGain then some rr.totalElevationGain else none
    rawElevationGain := if t.hasElevationGain then some rr.elevationGain else none
    rawAverageSpeed := if t.hasAverageSpeed then some rr.averageSpeed else none }

/-- NaN-filling step of `load_data` (lines 77-79): `fillna(0)` on the five
key columns only. -/
def cleanRow (r : Row) : Row :=
  { r with
    distanceKm := r.distanceKm.fillna0
    movingTimeHr := r.movingTimeHr.fillna0
    elevationGainM := r.elevationGainM.fillna0
    avgSpeedKmh := r.avgSpeedKmh.fillna0
    calories := r.calories.fillna0 }

/-- Infinity-replacement step of `load_data` (line 82):
`df.replace([inf, -inf], 0)` over every column of the frame. -/
def infRow (r : Row) : Row :=
  { r with
    distanceKm := r.distanceKm.replaceInf0
    movingTimeHr := r.movingTimeHr.replaceInf0
    elevationGainM := r.elevationGainM.replaceInf0
    avgSpeedKmh := r.avgSpeedKmh.replaceInf0
    calories := r.calories.replaceInf0
    rawDistance1 := r.rawDistance1.map PVal.replaceInf0
    rawDistance := r.rawDistance.map PVal.replaceInf0
    rawMovingTime := r.rawMovingTime.map PVal.replaceInf0
    rawTotalElevationGain := r.rawTotalElevationGain.map PVal.replaceInf0
    rawElevationGain := r.rawElevationGain.map PVal.replaceInf0
    rawAverageSpeed := r.rawAverageSpeed.map PVal.replaceInf0 }

/-- Full per-row normalization: derive, fill NaN in key columns, replace
infinities everywhere. -/
def normalizeRow (t : RawTable) (rr : RawRow) : Row :=
  infRow (cleanRow (deriveRow t rr))

/-- Chronological sort of the raw rows (`df.sort_index()` at load time),
modelled as a stable sort by timestamp. -/
def sortRawRows (l : List RawRow) : List RawRow :=
  l.mergeSort (fun a b => Stamp.le a.activityDate b.activityDate)

/-- The `load_data` function of the dashboard: parse/sort by timestamp and
normalize every row. -/
def load_data (t : RawTable) : List Row :=
  (sortRawRows t.rows).map (normalizeRow t)

/-- Year selection of the sidebar: "All Years" or one specific year. -/
inductive YearSel where
  | allYears : YearSel
  | year : Nat → YearSel
deriving DecidableEq, Repr

/-- Sidebar filtering (lines 100-118): restrict by year unless "All Years"
is selected, then by activity type unless the selection contains
"All Activities" or is empty. -/
def df_filtered (t : List Row) (ys : YearSel) (cats : List String) : List Row :=
  let t1 :=
    match ys with
    | .allYears => t
    | .year y => t.filter (fun r => r.year = y)
  if cats.contains ("All Activities") || cats.isEmpty then t1
  else t1.filter (fun r => cats.contains r.activityType)

/-- Scalar KPI (line 131): sum of the filtered distance column. -/
def total_distance (f : List Row) : PVal :=
  psum (f.map (fun r => r.distanceKm))

/-- Scalar KPI (line 140): mean of `Average_Speed_kmh` over the rows where
it is positive. -/
def avg_speed (f : List Row) : PVal :=
  pmean ((f.filter (fun r => r.avgSpeedKmh.isPos)).map (fun r => r.avgSpeedKmh))

/-- Chronological re-sort of the filtered table (line 177,
`df_filtered.sort_index()`). -/
def sortRows (l : List Row) : List Row :=
  l.mergeSort (fun a b => Stamp.le a.activityDate b.activityDate)

/-- Cumulative-distance series (line 178): running sum of `Distance_km`
in timestamp order. -/
def df_cumulative (f : List Row) : List PVal :=
  pcumsum ((sortRows f).map (fun r => r.distanceKm))

/-- Smallest `monthIdx` among `r :: rs` (left fold with the head as seed,
the lower end of the `resample('M')` bucket range of a group). -/
def minMonth (r : Row) (rs : List Row) : Nat :=
  rs.foldl (fun a s => min a s.activityDate.monthIdx) r.activityDate.monthIdx

/-- Largest `monthIdx` among `r :: rs`. -/
def maxMonth (r : Row) (rs : List Row) : Nat :=
  rs.foldl (fun a s => max a s.activityDate.monthIdx) r.activityDate.monthIdx

/-- Distinct activity types of a table, in the sorted order `groupby`
uses. -/
def catsOf (f : List Row) : List String :=
  ((f.map (fun r => r.activityType)).dedup).mergeSort (fun a b => decide (a ≤ b))

/-- Rows of one `groupby('Activity Type')` group. -/
def groupRows (f : List Row) (c : String) : List Row :=
  f.filter (fun r => r.activityType = c)

/-- Earliest calendar month of a group (0 on an empty group, which
`groupby` never produces). -/
def groupMinMonth (f : List Row) (c : String) : Nat :=
  match groupRows f c with
  | [] => 0
  | r :: rs => minMonth r rs

/-- Latest calendar month of a group. -/
def groupMaxMonth (f : List Row) (c : String) : Nat :=
  match groupRows f c with
  | [] => 0
  | r :: rs => maxMonth r rs

/-- Monthly aggregation (line 163):
`groupby('Activity Type').resample('M')['Distance_km'].sum()` — for every
activity type, one bucket per calendar month from the group's earliest to
its latest month inclusive, holding the sum of the group's distances in
that month (0 when the group has no activity that month). -/
def df_monthly_typed (f : List Row) : List (String × Nat × PVal) :=
  (catsOf f).flatMap fun c =>
    if (groupRows f c).isEmpty then []
    else
      (List.range (groupMaxMonth f c + 1 - groupMinMonth f c)).map fun i =>
        (c, groupMinMonth f c + i,
          psum (((groupRows f c).filter
            (fun s => s.activityDate.monthIdx = groupMinMonth f c + i)).map
              (fun s => s.distanceKm)))

/-- Row of the recent-activities table (line 291): the fixed display
column set, numeric cells rounded to one decimal by `round(1)`. -/
structure DisplayRow where
  activityName : String
  activityType : String
  distanceKm : PVal
  movingTimeHr : PVal
  avgSpeedKmh : PVal
  elevationGainM : PVal
deriving DecidableEq, Repr

/-- Projection and rounding applied to one row of the recent view. -/
def displayRow (r : Row) : DisplayRow :=
  { activityName := r.activityName
    activityType := r.activityType
    distanceKm := pround1 r.distanceKm
    movingTimeHr := pround1 r.movingTimeHr
    avgSpeedKmh := pround1 r.avgSpeedKmh
    elevationGainM := pround1 r.elevationGainM }

/-- Recent-activities view (line 296):
`df_filtered[display_cols].sort_index(ascending=False).head(20).round(1)`.
Pandas realises the descending sort by an ascending argsort whose indexer
is then reversed (`nargsort`), so with the argsort modelled as stable the
result is the reverse of the stable ascending sort. -/
def recent_view (f : List Row) : List DisplayRow :=
  (((sortRows f).reverse).take 20).map displayRow

/-- Recent view as the specification words it: a stable sort by timestamp
descending (insertion sort keeps tied rows in original row order), then
the first 20 rows, projected and rounded. -/
def spec_recent_view (f : List Row) : List DisplayRow :=
  ((List.insertionSort
      (fun a b => Stamp.le b.activityDate a.activityDate = true) f).take
    20).map displayRow

/-- Aggregated views handed to the presentation layer for one filter
request (the part of the script below the empty check). -/
structure Views where
  totalActivities : Nat
  totalDistance : PVal
  avgSpeed : PVal
  monthly : List (String × Nat × PVal)
  cumulative : List PVal
  recent : List DisplayRow
deriving DecidableEq, Repr

/-- Downstream aggregation over a non-empty filtered table. -/
def summarize (f : List Row) : Views :=
  { totalActivities := f.length
    totalDistance := total_distance f
    avgSpeed := avg_speed f
    monthly := df_monthly_typed f
    cumulative := df_cumulative f
    recent := recent_view f }

/-- Outcome of one filter request: either the empty-result signal
(`st.warning` + `st.stop()`, lines 121-123) or the aggregated views. -/
inductive PipelineOutput where
  | emptyResult : PipelineOutput
  | views : Views → PipelineOutput
deriving DecidableEq, Repr

/-- One filter request end to end: filter, stop with the empty-result
signal on zero rows, otherwise aggregate. -/
def pipeline (t : List Row) (ys : YearSel) (cats : List String) :
    PipelineOutput :=
  let f := df_filtered t ys cats
  if f.isEmpty then .emptyResult else .views (summarize f)

/-- Rational carried by a finite cell (0 for NaN and the infinities; only
applied where finiteness is known). -/
def qOf : PVal → ℚ
  | .num q => q
  | _ => 0

/-- Cell holds a finite non-negative number. -/
def PVal.isNonnegNum : PVal → Bool
  | .num q => decide (0 ≤ q)
  | _ => false

/-- Convenience constructor for a normalized row whose five key cells are
finite numbers and whose source columns are absent. -/
def mkRow (d : Stamp) (ty nm : String) (dist mt elev spd cal : ℚ) : Row :=
  { activityDate := d
    year := d.year
    activityType := ty
    activityName := nm
    distanceKm := .num dist
    movingTimeHr := .num mt
    elevationGainM := .num elev
    avgSpeedKmh := .num spd
    calories := .num cal
    rawDistance1 := none
    rawDistance := none
    rawMovingTime := none
    rawTotalElevationGain := none
    rawElevationGain := none
    rawAverageSpeed := none }

/-- Convenience constructor for a raw CSV row. -/
def mkRawRow (d : Stamp) (ty nm : String)
    (d1 dst mt te eg sp cal : PVal) : RawRow :=
  { activityDate := d
    activityType := ty
    activityName := nm
    distance1 := d1
    distance := dst
    movingTime := mt
    totalElevationGain := te
    elevationGain := eg
    averageSpeed := sp
    calories := cal }

/-- Raw table with one ride whose `Distance` cell is missing (NaN): input
exercising the NaN-coercion of the key columns. -/
def w1tab : RawTable :=
  { rows := [mkRawRow ⟨600, 3⟩ "Ride" "morning" .nan .nan (.num 1800)
      (.num 120) .nan .nan (.num 300)]
    hasDistance1 := false
    hasDistance := true
    hasMovingTime := true
    hasTotalElevationGain := true
    hasElevationGain := false
    hasAverageSpeed := false
    hasCalories := true }

/-- The single raw row of `w1tab`. -/
def w1row : RawRow :=
  mkRawRow ⟨600, 3⟩ "Ride" "morning" .nan .nan (.num 1800) (.num 120) .nan
    .nan (.num 300)

/-- Filtered table with one activity whose average speed is 0: no row has
positive speed. -/
def c2tab : List Row := [mkRow ⟨600, 0⟩ "Run" "rest" 0 0 0 0 0]

/-- Filtered table with two positive-speed runs and one zero-speed entry. -/
def c2tab2 : List Row :=
  [mkRow ⟨600, 0⟩ "Run" "a" 5 1 10 10 100,
   mkRow ⟨600, 1⟩ "Run" "b" 20 1 0 20 400,
   mkRow ⟨600, 2⟩ "Run" "c" 0 0 0 0 0]

/-- Raw table without an `Average Speed` column whose single row has
`Moving Time` 0. -/
def c4tab : RawTable :=
  { rows := [mkRawRow ⟨600, 0⟩ "Run" "idle" .nan (.num 3) (.num 0) .nan .nan
      .nan .nan]
    hasDistance1 := false
    hasDistance := true
    hasMovingTime := true
    hasTotalElevationGain := false
    hasElevationGain := false
    hasAverageSpeed := false
    hasCalories := false }

/-- The single raw row of `c4tab`. -/
def c4row : RawRow :=
  mkRawRow ⟨600, 0⟩ "Run" "idle" .nan (.num 3) (.num 0) .nan .nan .nan .nan

/-- Small non-empty filtered table with non-negative finite distances. -/
def c5tab : List Row :=
  [mkRow ⟨600, 0⟩ "Run" "a" 5 1 10 10 100,
   mkRow ⟨600, 1⟩ "Ride" "b" 20 1 0 20 400]

/-- Filtered table of 21 rows in ascending timestamp order with one tied
pair (positions 5 and 6 share a timestamp). -/
def c6tab : List Row :=
  (List.range 21).map fun i =>
    if i = 5 then mkRow ⟨600, 5⟩ "Run" "tieA" 1 1 0 1 0
    else if i = 6 then mkRow ⟨600, 5⟩ "Run" "tieB" 2 1 0 2 0
    else mkRow ⟨600, i⟩ "Run" "plain" 1 1 0 1 0

/-- Raw table whose elevation source column holds a negative value. -/
def c7tab : RawTable :=
  { rows := [mkRawRow ⟨600, 0⟩ "Run" "down" .nan .nan .nan (.num (-5)) .nan
      .nan .nan]
    hasDistance1 := false
    hasDistance := false
    hasMovingTime := false
    hasTotalElevationGain := true
    hasElevationGain := false
    hasAverageSpeed := false
    hasCalories := false }

/-- The single raw row of `c7tab`. -/
def c7row : RawRow :=
  mkRawRow ⟨600, 0⟩ "Run" "down" .nan .nan .nan (.num (-5)) .nan .nan .nan

/-- Normalized table with one run: the category filter "Walk" matches no
row of it. -/
def c8tab : List Row := [mkRow ⟨600, 0⟩ "Run" "a" 5 1 10 10 100]

/-- Raw table whose `Distance` cell is +infinity. -/
def c9tab : RawTable :=
  { rows := [mkRawRow ⟨600, 0⟩ "Run" "far" .nan .pinf (.num 3600) .nan .nan
      .nan .nan]
    hasDistance1 := false
    hasDistance := true
    hasMovingTime := true
    hasTotalElevationGain := false
    hasElevationGain := false
    hasAverageSpeed := false
    hasCalories := false }

/-- The single raw row of `c9tab`. -/
def c9row : RawRow :=
  mkRawRow ⟨600, 0⟩ "Run" "far" .nan .pinf (.num 3600) .nan .nan .nan .nan

/-- Filtered table with runs in calendar months 600 and 602 and nothing in
month 601. -/
def c10tab : List Row :=
  [mkRow ⟨600, 0⟩ "Run" "a" 5 1 10 10 100,
   mkRow ⟨602, 0⟩ "Run" "b" 7 1 0 7 200]

/-- Cleaning a key cell (fillna then inf-replacement) always yields a
finite number. -/
theorem cleanVal_isNum (v : PVal) : ((v.fillna0).replaceInf0).isNum = true := by
  cases v <;> rfl

/-- Cleaning turns every non-finite key cell into 0. -/
theorem cleanVal_zero (v : PVal) (h : v.isNum = false) :
    (v.fillna0).replaceInf0 = .num 0 := by
  cases v <;> simp_all [PVal.isNum, PVal.fillna0, PVal.replaceInf0]

/-- Inf-replacement never returns an infinity. -/
theorem replaceInf0_not_inf (v : PVal) : (v.replaceInf0).isInf = false := by
  cases v <;> rfl

/-- Inf-replacement sends both infinities to 0. -/
theorem replaceInf0_inf_eq_zero (v : PVal) (h : v.isInf = true) :
    v.replaceInf0 = .num 0 := by
  cases v <;> simp_all [PVal.isInf, PVal.replaceInf0]

/-- Rows of the normalized table are exactly the normalizations of the raw
rows. -/
theorem mem_load_data {t : RawTable} {r : Row} (h : r ∈ load_data t) :
    ∃ rr ∈ t.rows, r = normalizeRow t rr := by
  unfold load_data at h
  obtain ⟨rr, hrr, hEq⟩ := List.mem_map.mp h
  exact ⟨rr, List.mem_mergeSort.mp hrr, hEq.symm⟩

/-- Key-column projections of a normalized row in terms of the derived
values. -/
theorem normalizeRow_key (t : RawTable) (rr : RawRow) :
    (normalizeRow t rr).distanceKm
        = ((deriveRow t rr).distanceKm.fillna0).replaceInf0 ∧
      (normalizeRow t rr).movingTimeHr
        = ((deriveRow t rr).movingTimeHr.fillna0).replaceInf0 ∧
      (normalizeRow t rr).elevationGainM
        = ((deriveRow t rr).elevationGainM.fillna0).replaceInf0 ∧
      (normalizeRow t rr).avgSpeedKmh
        = ((deriveRow t rr).avgSpeedKmh.fillna0).replaceInf0 ∧
      (normalizeRow t rr).calories
        = ((deriveRow t rr).calories.fillna0).replaceInf0 :=
  ⟨rfl, rfl, rfl, rfl, rfl⟩

/-- With no `Average Speed` column the derived speed is the guarded
division of the derived distance by the derived time. -/
theorem deriveRow_avgSpeed (t : RawTable) (rr : RawRow)
    (h : t.hasAverageSpeed = false) :
    (deriveRow t rr).avgSpeedKmh =
      if (deriveRow t rr).movingTimeHr.isPos then
        (deriveRow t rr).distanceKm.div (deriveRow t rr).movingTimeHr
      else .num 0 := by
  simp only [deriveRow, h, Bool.false_eq_true, if_false]

/-- Mapping over an optional cell commutes with `toList`. -/
theorem optToList_map (o : Option PVal) (g : PVal → PVal) :
    (o.map g).toList = o.toList.map g := by
  cases o <;> rfl

/-- The inf-replacement step rewrites exactly the numeric cells of a row. -/
theorem infRow_numCells (r : Row) :
    (infRow r).numCells = r.numCells.map PVal.replaceInf0 := by
  simp [infRow, Row.numCells, optToList_map]

/-- Left fold of float addition over finite cells is rational addition. -/
theorem foldl_add_num (l : List PVal) (a : ℚ)
    (h : ∀ v ∈ l, v.isNum = true) :
    l.foldl PVal.add (.num a) = .num (a + (l.map qOf).sum) := by
  induction l generalizing a with
  | nil => simp
  | cons v vs ih =>
    obtain ⟨q, rfl⟩ : ∃ q, v = .num q := by
      have := h v (List.mem_cons_self _ _)
      cases v <;> simp_all [PVal.isNum]
    have hvs : ∀ w ∈ vs, w.isNum = true := fun w hw =>
      h w (List.mem_cons_of_mem _ hw)
    simp [PVal.add, ih _ hvs, qOf, add_assoc]

/-- A series of finite cells has no NaN to skip. -/
theorem filter_nonNan_of_num (l : List PVal)
    (h : ∀ v ∈ l, v.isNum = true) :
    l.filter (fun v => !v.isNan) = l := by
  refine List.filter_eq_self.mpr fun v hv => ?_
  have := h v hv
  cases v <;> simp_all [PVal.isNan, PVal.isNum]

/-- Pandas sum of a series of finite cells is the rational sum. -/
theorem psum_num (l : List PVal) (h : ∀ v ∈ l, v.isNum = true) :
    psum l = .num ((l.map qOf).sum) := by
  unfold psum
  rw [filter_nonNan_of_num l h, foldl_add_num l 0 h]
  simp

/-- Pandas mean of a non-empty series of finite cells is the rational
arithmetic mean. -/
theorem pmean_num (l : List PVal) (h : ∀ v ∈ l, v.isNum = true)
    (hne : l ≠ []) :
    pmean l = .num ((l.map qOf).sum / l.length) := by
  unfold pmean
  rw [filter_nonNan_of_num l h, psum_num l h]
  have hlen : (l.length : ℚ) ≠ 0 := by
    simp [List.length_eq_zero, hne]
  simp [PVal.div, hlen]

/-- A finite non-negative cell is in particular finite. -/
theorem isNum_of_isNonnegNum (v : PVal) (h : v.isNonnegNum = true) :
    v.isNum = true := by
  cases v <;> simp_all [PVal.isNonnegNum, PVal.isNum]

/-- Cumulative float sum of finite non-negative cells: a non-decreasing
sequence of finite partial sums ending at the total. -/
theorem pcumsumFrom_num (l : List PVal) (a : ℚ)
    (h : ∀ v ∈ l, v.isNonnegNum = true) :
    ∃ qs : List ℚ, pcumsumFrom (.num a) l = qs.map PVal.num ∧
      List.Chain' (· ≤ ·) (a :: qs) ∧
      (l ≠ [] → qs.getLast? = some (a + (l.map qOf).sum)) ∧
      qs.length = l.length := by
  induction l generalizing a with
  | nil => exact ⟨[], by simp [pcumsumFrom], by simp, by simp, rfl⟩
  | cons v vs ih =>
    obtain ⟨q, hq, rfl⟩ : ∃ q, 0 ≤ q ∧ v = .num q := by
      have := h v (List.mem_cons_self _ _)
      cases v <;> simp_all [PVal.isNonnegNum]
    have hvs : ∀ w ∈ vs, w.isNonnegNum = true := fun w hw =>
      h w (List.mem_cons_of_mem _ hw)
    obtain ⟨qs, h1, h2, h3, h4⟩ := ih (a + q) hvs
    refine ⟨(a + q) :: qs, ?_, ?_, ?_, ?_⟩
    · simp [pcumsumFrom, PVal.isNan, PVal.add, h1]
    · exact List.chain'_cons.mpr ⟨le_add_of_nonneg_right hq, h2⟩
    · intro _
      cases qs with
      | nil =>
        have : vs = [] := List.length_eq_zero.mp h4.symm
        simp [this, qOf]
      | cons b bs =>
        have hvs' : vs ≠ [] := by
          intro hc
          rw [hc] at h4
          exact absurd h4 (by simp)
        rw [List.getLast?_cons_cons]
        rw [h3 hvs']
        simp [qOf, add_assoc]
    · simp [h4]

/-- Seeded fold by `min` over months never exceeds its seed. -/
theorem foldlMin_le_seed (rs : List Row) (a : Nat) :
    rs.foldl (fun x s => min x s.activityDate.monthIdx) a ≤ a := by
  induction rs generalizing a with
  | nil => exact le_rfl
  | cons v vs ih =>
    exact le_trans (ih (min a v.activityDate.monthIdx)) (min_le_left _ _)

/-- Seeded fold by `min` over months bounds every member from below. -/
theorem foldlMin_le_mem (rs : List Row) (a : Nat) (r : Row) (hr : r ∈ rs) :
    rs.foldl (fun x s => min x s.activityDate.monthIdx) a
      ≤ r.activityDate.monthIdx := by
  induction rs generalizing a with
  | nil => cases hr
  | cons v vs ih =>
    rcases List.mem_cons.mp hr with h | h
    · subst h
      exact le_trans (foldlMin_le_seed vs _) (min_le_right _ _)
    · exact ih _ h

/-- Seeded fold by `min` is attained by the seed or by a member. -/
theorem foldlMin_attained (rs : List Row) (a : Nat) :
    rs.foldl (fun x s => min x s.activityDate.monthIdx) a = a ∨
      ∃ r ∈ rs, rs.foldl (fun x s => min x s.activityDate.monthIdx) a
        = r.activityDate.monthIdx := by
  induction rs generalizing a with
  | nil => exact Or.inl rfl
  | cons v vs ih =>
    rcases ih (min a v.activityDate.monthIdx) with h | ⟨r, hr, h⟩
    · rcases min_cases a v.activityDate.monthIdx with ⟨he, _⟩ | ⟨he, _⟩
      · exact Or.inl (by simpa [he] using h)
      · exact Or.inr ⟨v, (List.mem_cons_self _ _), by simpa [he] using h⟩
    · exact Or.inr ⟨r, List.mem_cons_of_mem _ hr, h⟩

/-- Seeded fold by `max` over months is at least its seed. -/
theorem foldlMax_ge_seed (rs : List Row) (a : Nat) :
    a ≤ rs.foldl (fun x s => max x s.activityDate.monthIdx) a := by
  induction rs generalizing a with
  | nil => exact le_rfl
  | cons v vs ih =>
    exact le_trans (le_max_left _ _) (ih (max a v.activityDate.monthIdx))

/-- Seeded fold by `max` over months bounds every member from above. -/
theorem foldlMax_ge_mem (rs : List Row) (a : Nat) (r : Row) (hr : r ∈ rs) :
    r.activityDate.monthIdx
      ≤ rs.foldl (fun x s => max x s.activityDate.monthIdx) a := by
  induction rs generalizing a with
  | nil => cases hr
  | cons v vs ih =>
    rcases List.mem_cons.mp hr with h | h
    · subst h
      exact le_trans (le_max_right _ _) (foldlMax_ge_seed vs _)
    · exact ih _ h

/-- Seeded fold by `max` is attained by the seed or by a member. -/
theorem foldlMax_attained (rs : List Row) (a : Nat) :
    rs.foldl (fun x s => max x s.activityDate.monthIdx) a = a ∨
      ∃ r ∈ rs, rs.foldl (fun x s => max x s.activityDate.monthIdx) a
        = r.activityDate.monthIdx := by
  induction rs generalizing a with
  | nil => exact Or.inl rfl
  | cons v vs ih =>
    rcases ih (max a v.activityDate.monthIdx) with h | ⟨r, hr, h⟩
    · rcases max_cases a v.activityDate.monthIdx with ⟨he, _⟩ | ⟨he, _⟩
      · exact Or.inl (by simpa [he] using h)
      · exact Or.inr ⟨v, (List.mem_cons_self _ _), by simpa [he] using h⟩
    · exact Or.inr ⟨r, List.mem_cons_of_mem _ hr, h⟩

/-- Normalization of any raw row of the table is a row of the loaded
table. -/
theorem load_data_mem_of_mem {t : RawTable} {rr : RawRow}
    (h : rr ∈ t.rows) : normalizeRow t rr ∈ load_data t := by
  unfold load_data
  exact List.mem_map.mpr ⟨rr, List.mem_mergeSort.mpr h, rfl⟩

/-- C1: in the table produced by `load_data`, none of the five key numeric
columns (`Distance_km`, `Moving_Time_hr`, `Elevation_Gain_m`,
`Average_Speed_kmh`, `Calories`) holds a missing, NaN or infinite value;
every non-finite derived value has been replaced by 0. -/
theorem C1_key_columns_finite (t : RawTable) (r : Row)
    (h : r ∈ load_data t) :
    (r.distanceKm.isNum = true ∧ r.movingTimeHr.isNum = true ∧
      r.elevationGainM.isNum = true ∧ r.avgSpeedKmh.isNum = true ∧
      r.calories.isNum = true) ∧
    ∃ rr ∈ t.rows, r = normalizeRow t rr ∧
      ((deriveRow t rr).distanceKm.isNum = false → r.distanceKm = .num 0) ∧
      ((deriveRow t rr).movingTimeHr.isNum = false →
        r.movingTimeHr = .num 0) ∧
      ((deriveRow t rr).elevationGainM.isNum = false →
        r.elevationGainM = .num 0) ∧
      ((deriveRow t rr).avgSpeedKmh.isNum = false →
        r.avgSpeedKmh = .num 0) ∧
      ((deriveRow t rr).calories.isNum = false → r.calories = .num 0) := by
  obtain ⟨rr, hrr, rfl⟩ := mem_load_data h
  obtain ⟨e1, e2, e3, e4, e5⟩ := normalizeRow_key t rr
  refine ⟨⟨?_, ?_, ?_, ?_, ?_⟩,
    rr, hrr, rfl, fun hv => ?_, fun hv => ?_, fun hv => ?_, fun hv => ?_,
    fun hv => ?_⟩
  · rw [e1]; exact cleanVal_isNum _
  · rw [e2]; exact cleanVal_isNum _
  · rw [e3]; exact cleanVal_isNum _
  · rw [e4]; exact cleanVal_isNum _
  · rw [e5]; exact cleanVal_isNum _
  · rw [e1]; exact cleanVal_zero _ hv
  · rw [e2]; exact cleanVal_zero _ hv
  · rw [e3]; exact cleanVal_zero _ hv
  · rw [e4]; exact cleanVal_zero _ hv
  · rw [e5]; exact cleanVal_zero _ hv

/-- Witness for C1 on a concrete table whose `Distance` cell is NaN: the
normalized row is a member of the loaded table and its key cells are all
finite. -/
theorem C1_key_columns_finite_witness :
    normalizeRow w1tab w1row ∈ load_data w1tab ∧
    ((normalizeRow w1tab w1row).distanceKm.isNum = true ∧
      (normalizeRow w1tab w1row).movingTimeHr.isNum = true ∧
      (normalizeRow w1tab w1row).elevationGainM.isNum = true ∧
      (normalizeRow w1tab w1row).avgSpeedKmh.isNum = true ∧
      (normalizeRow w1tab w1row).calories.isNum = true) :=
  ⟨load_data_mem_of_mem (by decide),
    (C1_key_columns_finite w1tab (normalizeRow w1tab w1row)
      (load_data_mem_of_mem (by decide))).1⟩

/-- C3: filtering with "All Years" and the "All Activities" selection is
the identity on the normalized table, and an empty category selection
filters exactly like the "All Activities" selection. -/
theorem C3_all_filters_identity (t : List Row) (ys : YearSel) :
    df_filtered t .allYears ["All Activities"] = t ∧
    df_filtered t ys [] = df_filtered t ys ["All Activities"] := by
  constructor <;> simp [df_filtered]

/-- C4: with no `Average Speed` column, a raw row whose `Moving Time` is 0
normalizes to average speed 0 (no division error), and in general the
derived speed is distance over time when the derived time is a positive
number and 0 otherwise. -/
theorem C4_derived_speed (t : RawTable) (rr : RawRow)
    (hno : t.hasAverageSpeed = false) :
    (rr.movingTime = .num 0 → (normalizeRow t rr).avgSpeedKmh = .num 0) ∧
    (∀ a b : ℚ, (deriveRow t rr).distanceKm = .num a →
      (deriveRow t rr).movingTimeHr = .num b → 0 < b →
      (normalizeRow t rr).avgSpeedKmh = .num (a / b)) ∧
    (∀ b : ℚ, (deriveRow t rr).movingTimeHr = .num b → ¬ 0 < b →
      (normalizeRow t rr).avgSpeedKmh = .num 0) := by
  obtain ⟨_, _, _, e4, _⟩ := normalizeRow_key t rr
  have hsp := deriveRow_avgSpeed t rr hno
  have hmt0 : rr.movingTime = .num 0 →
      (deriveRow t rr).movingTimeHr = .num 0 := by
    intro hz
    show (if t.hasMovingTime then rr.movingTime.scale (1/3600)
      else .num 0) = .num 0
    cases t.hasMovingTime <;> simp [hz, PVal.scale]
  refine ⟨fun hz => ?_, fun a b ha hb hpos => ?_, fun b hb hneg => ?_⟩
  · rw [e4, hsp, hmt0 hz]
    rfl
  · rw [e4, hsp, ha, hb]
    have hb0 : b ≠ 0 := ne_of_gt hpos
    simp [PVal.isPos, hpos, PVal.div, hb0, PVal.fillna0, PVal.replaceInf0]
  · rw [e4, hsp, hb]
    simp [PVal.isPos, hneg, PVal.fillna0, PVal.replaceInf0]

/-- Witness for C4: the concrete table `c4tab` has no `Average Speed`
column and its row has `Moving Time` 0; the normalized speed is 0. -/
theorem C4_derived_speed_witness :
    c4tab.hasAverageSpeed = false ∧
    (normalizeRow c4tab c4row).avgSpeedKmh = .num 0 :=
  ⟨rfl, (C4_derived_speed c4tab c4row rfl).1 rfl⟩

/-- C7 counterexample: a source elevation of -5 is copied, not replaced by
its absolute value, so the normalized cell differs from the claimed
magnitude. -/
theorem C7_counterexample :
    (normalizeRow c7tab c7row).elevationGainM = .num (-5) ∧
    (normalizeRow c7tab c7row).elevationGainM ≠ .num |(-5 : ℚ)| := by
  constructor <;> decide

/-- C7 amended: the normalized `Elevation_Gain_m` is the source elevation
value unchanged (first `Total Elevation Gain`, else `Elevation Gain`,
else 0), negative values included; only NaN and infinite source cells
become 0. -/
theorem C7_elevation_amended (t : RawTable) (rr : RawRow) (q : ℚ) :
    (t.hasTotalElevationGain = true → rr.totalElevationGain = .num q →
      (normalizeRow t rr).elevationGainM = .num q) ∧
    (t.hasTotalElevationGain = false → t.hasElevationGain = true →
      rr.elevationGain = .num q →
      (normalizeRow t rr).elevationGainM = .num q) ∧
    (t.hasTotalElevationGain = false → t.hasElevationGain = false →
      (normalizeRow t rr).elevationGainM = .num 0) ∧
    (t.hasTotalElevationGain = true →
      rr.totalElevationGain.isNum = false →
      (normalizeRow t rr).elevationGainM = .num 0) := by
  obtain ⟨_, _, e3, _, _⟩ := normalizeRow_key t rr
  have hder : (deriveRow t rr).elevationGainM =
      (if t.hasTotalElevationGain then rr.totalElevationGain
        else if t.hasElevationGain then rr.elevationGain else .num 0) := rfl
  refine ⟨fun h1 h2 => ?_, fun h1 h2 h3 => ?_, fun h1 h2 => ?_,
    fun h1 h2 => ?_⟩
  · rw [e3, hder, h1, if_pos rfl, h2]
    rfl
  · rw [e3, hder, h1, h2, h3]
    rfl
  · rw [e3, hder, h1, h2]
    rfl
  · rw [e3, hder, h1, if_pos rfl]
    exact cleanVal_zero _ h2

/-- Witness for C7 amended: the negative source elevation -5 of `c7tab`
passes through normalization unchanged. -/
theorem C7_elevation_amended_witness :
    (normalizeRow c7tab c7row).elevationGainM = .num (-5) :=
  (C7_elevation_amended c7tab c7row (-5)).1 rfl rfl

/-- C8: when the filter predicates match zero rows, the pipeline reports
the empty-result signal — a value distinct from every aggregated-views
result — and performs no downstream aggregation. -/
theorem C8_empty_result (t : List Row) (ys : YearSel) (cats : List String)
    (h : df_filtered t ys cats = []) :
    pipeline t ys cats = .emptyResult ∧
    ∀ v : Views, (PipelineOutput.emptyResult : PipelineOutput) ≠ .views v := by
  refine ⟨?_, fun v hv => by cases hv⟩
  unfold pipeline
  simp [h]

/-- Witness for C8: the category selection "Walk" matches no row of the
one-run table `c8tab`; the pipeline answers with the empty-result
signal. -/
theorem C8_empty_result_witness :
    df_filtered c8tab .allYears ["Walk"] = [] ∧
    pipeline c8tab .allYears ["Walk"] = .emptyResult :=
  ⟨by decide, (C8_empty_result c8tab .allYears ["Walk"] (by decide)).1⟩

/-- C9: the infinity replacement of `load_data` ranges over every numeric
column of the frame, derived and raw source columns alike: no cell of a
normalized row is ±infinity, the cells are exactly the pre-replacement
cells mapped through the replacement, and the replacement sends every
infinite cell to 0. -/
theorem C9_inf_replaced_everywhere (t : RawTable) (r : Row)
    (h : r ∈ load_data t) :
    (∀ v ∈ r.numCells, v.isInf = false) ∧
    ∃ rr ∈ t.rows, r = normalizeRow t rr ∧
      r.numCells = ((cleanRow (deriveRow t rr)).numCells).map
        PVal.replaceInf0 ∧
      ∀ v : PVal, v.isInf = true → v.replaceInf0 = .num 0 := by
  obtain ⟨rr, hrr, rfl⟩ := mem_load_data h
  have hc : (normalizeRow t rr).numCells =
      ((cleanRow (deriveRow t rr)).numCells).map PVal.replaceInf0 :=
    infRow_numCells _
  refine ⟨fun v hv => ?_, rr, hrr, rfl, hc, replaceInf0_inf_eq_zero⟩
  rw [hc] at hv
  obtain ⟨w, _, rfl⟩ := List.mem_map.mp hv
  exact replaceInf0_not_inf w

/-- Witness for C9 on a concrete table whose `Distance` cell is +infinity:
the normalized row is in the loaded table and none of its numeric cells is
infinite. -/
theorem C9_inf_replaced_everywhere_witness :
    normalizeRow c9tab c9row ∈ load_data c9tab ∧
    ∀ v ∈ (normalizeRow c9tab c9row).numCells,
      v.isInf = false :=
  ⟨load_data_mem_of_mem (by decide),
    (C9_inf_replaced_everywhere c9tab
      (normalizeRow c9tab c9row) (load_data_mem_of_mem (by decide))).1⟩

/-- C2 counterexample: on a filtered table whose only row has average
speed 0, the scalar-summary average speed is the mean of an empty series,
i.e. NaN, not 0 as claimed. -/
theorem C2_counterexample :
    c2tab ≠ [] ∧ (∀ r ∈ c2tab, r.avgSpeedKmh.isPos = false) ∧
    avg_speed c2tab = PVal.nan ∧ (PVal.nan : PVal) ≠ .num 0 := by
  refine ⟨by decide, by decide, by decide, by decide⟩

/-- C2 amended: over a filtered table with finite speeds, the
scalar-summary average speed is the arithmetic mean of `Average_Speed_kmh`
over exactly the rows where it is positive when at least one such row
exists, and is NaN (not 0) when no such row exists. -/
theorem C2_avg_speed_amended (f : List Row)
    (h : ∀ r ∈ f, r.avgSpeedKmh.isNum = true) :
    (f.filter (fun r => r.avgSpeedKmh.isPos) = [] →
      avg_speed f = PVal.nan) ∧
    (f.filter (fun r => r.avgSpeedKmh.isPos) ≠ [] →
      avg_speed f = .num
        (((f.filter (fun r => r.avgSpeedKmh.isPos)).map
            (fun r => qOf r.avgSpeedKmh)).sum /
          ((f.filter (fun r => r.avgSpeedKmh.isPos)).length : ℚ))) := by
  constructor
  · intro he
    unfold avg_speed
    rw [he]
    decide
  · intro hne
    unfold avg_speed
    have hnum : ∀ v ∈ (f.filter (fun r => r.avgSpeedKmh.isPos)).map
        (fun r => r.avgSpeedKmh), v.isNum = true := by
      intro v hv
      obtain ⟨r, hr, rfl⟩ := List.mem_map.mp hv
      exact h r (List.mem_of_mem_filter hr)
    have hmapne : (f.filter (fun r => r.avgSpeedKmh.isPos)).map
        (fun r => r.avgSpeedKmh) ≠ [] := by
      simp [hne]
    rw [pmean_num _ hnum hmapne]
    simp only [List.map_map, List.length_map]
    rfl

/-- Witness for C2 amended: on `c2tab2` the two positive speeds 10 and 20
average to 15 (the zero-speed row is excluded). -/
theorem C2_avg_speed_amended_witness : avg_speed c2tab2 = .num 15 := by
  rw [(C2_avg_speed_amended c2tab2 (by decide)).2 (by decide)]
  simp +decide [c2tab2, mkRow, qOf, PVal.isPos]
  norm_num

/-- C5: over a non-empty filtered table whose distances are finite and
non-negative (the data-model invariant of the normalized table), the
cumulative-distance series consists of finite values, is non-decreasing,
and its last entry is the scalar summary's total distance. -/
theorem C5_cumulative_distance (f : List Row) (hne : f ≠ [])
    (h : ∀ r ∈ f, r.distanceKm.isNonnegNum = true) :
    ∃ qs : List ℚ, df_cumulative f = qs.map PVal.num ∧
      List.Chain' (· ≤ ·) qs ∧ qs ≠ [] ∧
      (df_cumulative f).getLast? = some (total_distance f) := by
  have hl : ∀ v ∈ (sortRows f).map (fun r => r.distanceKm),
      v.isNonnegNum = true := by
    intro v hv
    obtain ⟨r, hr, rfl⟩ := List.mem_map.mp hv
    exact h r (List.mem_mergeSort.mp hr)
  obtain ⟨qs, h1, h2, h3, h4⟩ :=
    pcumsumFrom_num ((sortRows f).map (fun r => r.distanceKm)) 0 hl
  have hlne : (sortRows f).map (fun r => r.distanceKm) ≠ [] := by
    have hlen : (sortRows f).length = f.length := List.length_mergeSort f
    intro hc
    have := congrArg List.length hc
    simp [hlen] at this
    exact hne this
  have hcum : df_cumulative f = qs.map PVal.num := h1
  refine ⟨qs, hcum, h2.tail, ?_, ?_⟩
  · intro hqs
    rw [hqs] at h4
    exact hlne (List.length_eq_zero.mp h4.symm)
  · rw [hcum, List.getLast?_map, h3 hlne]
    have hperm : (((sortRows f).map (fun r => r.distanceKm)).map qOf).Perm
        ((f.map (fun r => r.distanceKm)).map qOf) :=
      (((List.mergeSort_perm f _).map (fun r => r.distanceKm)).map qOf)
    have htot : total_distance f =
        .num (((f.map (fun r => r.distanceKm)).map qOf).sum) := by
      apply psum_num
      intro v hv
      obtain ⟨r, hr, rfl⟩ := List.mem_map.mp hv
      exact isNum_of_isNonnegNum _ (h r hr)
    rw [htot, hperm.sum_eq]
    simp

/-- Witness for C5 on the two-row table `c5tab`. -/
theorem C5_cumulative_distance_witness :
    ∃ qs : List ℚ, df_cumulative c5tab = qs.map PVal.num ∧
      List.Chain' (· ≤ ·) qs ∧ qs ≠ [] ∧
      (df_cumulative c5tab).getLast? = some (total_distance c5tab) :=
  C5_cumulative_distance c5tab (by decide) (by decide)

/-- C6 counterexample: on the ascending 21-row table `c6tab` with a tied
timestamp pair, the code's recent view (reverse of the ascending order)
differs from the claimed view (timestamp descending with ties in original
row order): at position 14 the code shows the later tied row, the claim
the earlier one. -/
theorem C6_counterexample :
    20 < c6tab.length ∧ recent_view c6tab ≠ spec_recent_view c6tab := by
  have hsort : sortRows c6tab = c6tab :=
    List.mergeSort_of_sorted (by decide)
  refine ⟨by decide, fun hEq => ?_⟩
  have h14 : ((recent_view c6tab)[14]?).map (fun d => d.activityName) =
      some ("tieB") := by
    unfold recent_view
    rw [hsort]
    decide
  have h14s : ((spec_recent_view c6tab)[14]?).map (fun d => d.activityName) =
      some ("tieA") := by
    decide
  rw [hEq, h14s] at h14
  simp at h14

/-- C6 amended: for an ascending-sorted filtered table with more than 20
rows, the recent-activity view is the reverse of the table truncated to 20
rows (so ties appear in reverse of original row order), projected to the
display columns with one-decimal rounding; it has exactly 20 rows and is
ordered by timestamp descending. -/
theorem C6_recent_amended (f : List Row)
    (hs : List.Pairwise
      (fun a b : Row => Stamp.le a.activityDate b.activityDate = true) f)
    (hlen : 20 < f.length) :
    recent_view f = ((f.reverse).take 20).map displayRow ∧
    (recent_view f).length = 20 ∧
    List.Pairwise
      (fun a b : Row => Stamp.le b.activityDate a.activityDate = true)
      ((f.reverse).take 20) := by
  have hsort : sortRows f = f := List.mergeSort_of_sorted hs
  refine ⟨?_, ?_, ?_⟩
  · unfold recent_view
    rw [hsort]
  · unfold recent_view
    rw [hsort]
    simp only [List.length_map, List.length_take, List.length_reverse]
    omega
  · exact List.Pairwise.sublist (List.take_sublist _ _)
      (List.pairwise_reverse.mpr hs)

/-- Witness for C6 amended at the concrete 21-row table `c6tab`. -/
theorem C6_recent_amended_witness :
    recent_view c6tab = ((c6tab.reverse).take 20).map displayRow ∧
    (recent_view c6tab).length = 20 ∧
    List.Pairwise
      (fun a b : Row => Stamp.le b.activityDate a.activityDate = true)
      ((c6tab.reverse).take 20) :=
  C6_recent_amended c6tab (by decide) (by decide)

/-- C10: for a category present in the filtered table, the monthly
aggregation emits exactly one bucket per calendar month between the
category's earliest and latest activity month inclusive; each bucket holds
the sum of that category's distances in its month, and a month without
activities yields the zero bucket rather than being omitted. -/
theorem C10_monthly_buckets (f : List Row) (c : String) (m : Nat)
    (r0 : Row) (h0 : r0 ∈ f) (hc : r0.activityType = c) :
    ((∃ s, (c, m, s) ∈ df_monthly_typed f) ↔
      groupMinMonth f c ≤ m ∧ m ≤ groupMaxMonth f c) ∧
    (∀ s, (c, m, s) ∈ df_monthly_typed f →
      s = psum (((groupRows f c).filter
        (fun r => r.activityDate.monthIdx = m)).map
          (fun r => r.distanceKm))) ∧
    (∀ s, (c, m, s) ∈ df_monthly_typed f →
      (∀ r ∈ groupRows f c, ¬ r.activityDate.monthIdx = m) →
      s = .num 0) ∧
    (∀ r ∈ groupRows f c, groupMinMonth f c ≤ r.activityDate.monthIdx ∧
      r.activityDate.monthIdx ≤ groupMaxMonth f c) ∧
    (∃ r ∈ groupRows f c, r.activityDate.monthIdx = groupMinMonth f c) ∧
    (∃ r ∈ groupRows f c, r.activityDate.monthIdx = groupMaxMonth f c) := by
  have hr0g : r0 ∈ groupRows f c :=
    List.mem_filter.mpr ⟨h0, by simp [hc]⟩
  cases hG : groupRows f c with
  | nil =>
    rw [hG] at hr0g
    cases hr0g
  | cons g gs =>
    rw [← hG]
    have hbounds : ∀ r ∈ groupRows f c,
        groupMinMonth f c ≤ r.activityDate.monthIdx ∧
          r.activityDate.monthIdx ≤ groupMaxMonth f c := by
      intro r hr
      rw [hG] at hr
      unfold groupMinMonth groupMaxMonth
      rw [hG]
      simp only [minMonth, maxMonth]
      rcases List.mem_cons.mp hr with h | h
      · subst h
        exact ⟨foldlMin_le_seed gs _, foldlMax_ge_seed gs _⟩
      · exact ⟨foldlMin_le_mem gs _ r h, foldlMax_ge_mem gs _ r h⟩
    have hloat : ∃ r ∈ groupRows f c,
        r.activityDate.monthIdx = groupMinMonth f c := by
      unfold groupMinMonth
      rw [hG]
      simp only [minMonth]
      rcases foldlMin_attained gs g.activityDate.monthIdx with h | ⟨r, hr, h⟩
      · exact ⟨g, List.mem_cons_self _ _, h.symm⟩
      · exact ⟨r, List.mem_cons_of_mem _ hr, h.symm⟩
    have hhiat : ∃ r ∈ groupRows f c,
        r.activityDate.monthIdx = groupMaxMonth f c := by
      unfold groupMaxMonth
      rw [hG]
      simp only [maxMonth]
      rcases foldlMax_attained gs g.activityDate.monthIdx with h | ⟨r, hr, h⟩
      · exact ⟨g, List.mem_cons_self _ _, h.symm⟩
      · exact ⟨r, List.mem_cons_of_mem _ hr, h.symm⟩
    have hlohi : groupMinMonth f c ≤ groupMaxMonth f c :=
      le_trans (hbounds r0 hr0g).1 (hbounds r0 hr0g).2
    have hne : ¬ ((groupRows f c).isEmpty = true) := by
      rw [hG]
      simp
    have hchar : ∀ s : PVal, (c, m, s) ∈ df_monthly_typed f ↔
        ∃ i, i < groupMaxMonth f c + 1 - groupMinMonth f c ∧
          m = groupMinMonth f c + i ∧
          s = psum (((groupRows f c).filter
            (fun r => r.activityDate.monthIdx = groupMinMonth f c + i)).map
              (fun r => r.distanceKm)) := by
      intro s
      unfold df_monthly_typed
      rw [List.mem_flatMap]
      constructor
      · rintro ⟨cx, hcats, hmem⟩
        by_cases hE : (groupRows f cx).isEmpty = true
        · rw [if_pos hE] at hmem
          cases hmem
        · rw [if_neg hE] at hmem
          obtain ⟨i, hi, heq⟩ := List.mem_map.mp hmem
          simp only [Prod.mk.injEq] at heq
          obtain ⟨h1, h2, h3⟩ := heq
          subst h1
          exact ⟨i, List.mem_range.mp hi, h2.symm, h3.symm⟩
      · rintro ⟨i, hi, rfl, rfl⟩
        refine ⟨c, ?_, ?_⟩
        · unfold catsOf
          exact List.mem_mergeSort.mpr (List.mem_dedup.mpr
            (List.mem_map.mpr ⟨r0, h0, hc⟩))
        · rw [if_neg hne]
          exact List.mem_map.mpr ⟨i, List.mem_range.mpr hi, rfl⟩
    have hval : ∀ s, (c, m, s) ∈ df_monthly_typed f →
        s = psum (((groupRows f c).filter
          (fun r => r.activityDate.monthIdx = m)).map
            (fun r => r.distanceKm)) := by
      intro s hs
      obtain ⟨i, hi, hm, hval⟩ := (hchar s).mp hs
      rw [hval, ← hm]
    refine ⟨⟨?_, ?_⟩, hval, ?_, hbounds, hloat, hhiat⟩
    · rintro ⟨s, hs⟩
      obtain ⟨i, hi, hm, _⟩ := (hchar s).mp hs
      omega
    · rintro ⟨hm1, hm2⟩
      exact ⟨_, (hchar _).mpr ⟨m - groupMinMonth f c, by omega, by omega,
        rfl⟩⟩
    · intro s hs hno
      rw [hval s hs, List.filter_eq_nil_iff.mpr (by
        intro r hr
        simp [hno r hr])]
      rfl

/-- Witness for C10 on `c10tab` (runs in months 600 and 602 only): month
601 gets a bucket and its value is the zero sum. -/
theorem C10_monthly_buckets_witness :
    ∃ s, ("Run", 601, s) ∈ df_monthly_typed c10tab ∧ s = PVal.num 0 := by
  have h := C10_monthly_buckets c10tab ("Run") 601
    (mkRow ⟨600, 0⟩ "Run" "a" 5 1 10 10 100) (by decide) rfl
  obtain ⟨s, hs⟩ := h.1.mpr (by decide)
  exact ⟨s, hs, h.2.2.1 s hs (by decide)⟩
